import Mathlib

/-!
Verification of the Blender2Camera2 export script (`b2c2_export.py`).

The development embeds the `export_main` pipeline in Lean:

* Scalars are modelled as exact rationals (`ℚ`).  Angles are stored as their
  ratio to π: an angle of `x` radians is the rational `x / π`.  With this
  convention `math.radians(d) = d * π / 180` becomes `d / 180` and
  `math.degrees(a) = a * 180 / π` becomes `a * 180`, so the whole pipeline
  stays inside `ℚ` and is executable.
* The Blender / mathutils API is the external boundary.  A `Scene` carries,
  for every camera name and frame, the decomposed state of the temporary
  export object right after `export_obj.matrix_world = mw_blender`
  (its location and its XYZ euler rotation, which is how a Blender object
  stores a world matrix), plus the camera's `angle_y`.  The external
  `mathutils.Matrix.to_euler('YXZ')` call is modelled by the scene's
  `toEulerYXZ` field: it maps the XYZ euler angles of `mw_unity`'s rotation
  part to the YXZ euler decomposition of the same rotation (the translation
  part of `mw_unity` is the object's location, unchanged by line 360's
  rotation offset).
* Python's `round(x, 3)` (round half to even on the exact value) is
  `round3`; `os.path.splitext` is `splitext` (posix separator).
* Selection handling (lines 267-271 and 416-434) is modelled by a small
  state machine `BState` over object names, with the Blender operator
  semantics of `empty_add` (deselects everything, selects and activates the
  new object), `select_set` and `delete` (removes the selected objects,
  clearing the active object if it was deleted).
-/

namespace B2C2

/-- Python's built-in banker's rounding of a rational to the nearest integer:
round half to even. -/
def pyRoundHalfEven (x : ℚ) : ℤ :=
  if Int.fract x < 1/2 then ⌊x⌋
  else if 1/2 < Int.fract x then ⌊x⌋ + 1
  else if ⌊x⌋ % 2 = 0 then ⌊x⌋ else ⌊x⌋ + 1

/-- Python's `round(x, 3)`: round to 3 decimal places, ties to even. -/
def round3 (x : ℚ) : ℚ := (pyRoundHalfEven (x * 1000) : ℚ) / 1000

/-- Angles are stored as their ratio to π, so `math.radians(d) = d*π/180`
becomes `d / 180`. -/
def radians (d : ℚ) : ℚ := d / 180

/-- Angles are stored as their ratio to π, so `math.degrees(a) = a*180/π`
becomes `a * 180`. -/
def degrees (a : ℚ) : ℚ := a * 180

/-- A 3-vector of rational scalars. -/
structure Vec3 where
  x : ℚ
  y : ℚ
  z : ℚ
deriving DecidableEq

/-- An object of `bpy.data.objects`: its (unique) name and its `type`
string (`'CAMERA'`, `'MESH'`, ...). -/
structure SceneObject where
  name : String
  objType : String
deriving DecidableEq

/-- What the external Blender API yields for one camera at one frame, after
`scene.frame_set(frame)` and `export_obj.matrix_world = mw_blender`
(lines 349-358): the export object's decomposed state (location and XYZ
euler rotation, angles as ratios to π) and the camera's vertical field of
view angle `camera.data.angle_y` (ratio to π). -/
structure CameraFrameData where
  loc : Vec3
  eul : Vec3
  angle_y : ℚ
deriving DecidableEq

/-- The external Blender scene state read by `export_main`: the objects of
`bpy.data.objects`, the frame range, the render frame rate, the per-camera
per-frame sampled data, and the external
`mathutils.Matrix.to_euler('YXZ')` decomposition, modelled as a map from
the XYZ euler angles of a rotation to its YXZ euler angles
(components returned in x, y, z order, as mathutils does). -/
structure Scene where
  objects : List SceneObject
  frame_start : ℤ
  frame_end : ℤ
  fps : ℚ
  data : String → ℤ → CameraFrameData
  toEulerYXZ : Vec3 → Vec3

/-- Line 39: the prefix cameras must carry in their (lowercased) name. -/
def CONFIG_CAMERA_PREFIX : String := "b2c2_"

/-- Python's `str.lower()`, character by character (Blender object names
are ASCII here). -/
def pyLower (s : String) : String := String.mk (s.toList.map Char.toLower)

/-- Python's `s.startswith(t)`. -/
def pyStartsWith (s t : String) : Bool := t.toList.isPrefixOf s.toList

/-- Lines 283-291: keep the objects of type `'CAMERA'` whose lowercased
name starts with the configured prefix.  `bpy.data.objects` is keyed by
name, so object names are pairwise distinct. -/
def findCameras (objs : List SceneObject) : List SceneObject :=
  objs.filter (fun o => o.objType == "CAMERA" && pyStartsWith (pyLower o.name) CONFIG_CAMERA_PREFIX)

/-- One entry of `paths[camera.name]` (lines 404-414): the frame number and
the `pos` / `rot` / `fov` values packed in `dict_unity`. -/
structure PathEntry where
  frame : ℤ
  pos : Vec3
  rot : Vec3
  fov : ℚ
deriving DecidableEq

/-- Lines 349-414, one iteration of the frame loop for one camera:

* line 360: `export_obj.rotation_euler[0] += math.radians(-90)`;
* line 392: `fov = math.degrees(camera.data.angle_y)`;
* line 400: `(px, pz, py) = mw_unity.to_translation()` — the translation of
  `mw_unity` is the export object's location, which line 360 left untouched;
* line 401: `(rx, rz, ry) = mw_unity.to_euler('YXZ')`;
* lines 404-408: `dict_unity` with `pos = (px, py, pz)` and
  `rot = (-rx, -ry, -rz)`. -/
def collectSample (sc : Scene) (camName : String) (frame : ℤ) : PathEntry :=
  let d := sc.data camName frame
  let eulUnity : Vec3 := { x := d.eul.x + radians (-90), y := d.eul.y, z := d.eul.z }
  let fov : ℚ := degrees d.angle_y
  let px := d.loc.x
  let pz := d.loc.y
  let py := d.loc.z
  let e := sc.toEulerYXZ eulUnity
  let rx := e.x
  let rz := e.y
  let ry := e.z
  { frame := frame
  , pos := { x := px, y := py, z := pz }
  , rot := { x := -rx, y := -ry, z := -rz }
  , fov := fov }

/-- Line 346: `range(scene.frame_start, scene.frame_end + 1)`. -/
def frameRange (sc : Scene) : List ℤ :=
  (List.range (sc.frame_end + 1 - sc.frame_start).toNat).map
    (fun i : ℕ => sc.frame_start + (i : ℤ))

/-- All entries appended to `paths[camName]` by the frame loop, in loop
order. -/
def cameraPath (sc : Scene) (camName : String) : List PathEntry :=
  (frameRange sc).map (collectSample sc camName)

/-- Lines 328-414: the `paths` dictionary.  Keys are created inside the
frame loop (lines 411-412), so with an empty frame range no key is ever
created; otherwise every found camera gets exactly one key (object names
are unique), in camera order, holding its per-frame entries in frame
order. -/
def buildPaths (sc : Scene) : List (String × List PathEntry) :=
  if frameRange sc = [] then []
  else (findCameras sc.objects).map (fun cam => (cam.name, cameraPath sc cam.name))

/-- One element of `movement[camera_name]['frames']` (lines 470-487). -/
structure FrameRecord where
  frame_index : ℕ
  position : Vec3
  rotation : Vec3
  FOV : ℚ
  duration : ℚ
deriving DecidableEq

/-- One value of the `movement` dictionary (lines 459-489). -/
structure MovementScript where
  syncToSong : Bool
  loop : Bool
  frames : List FrameRecord
deriving DecidableEq

/-- Lines 470-487, the record built for the `i`-th (0-based) path entry:
1-based `frame_index`; position components rounded to 3 decimals; rotation
converted to degrees and rounded to 3 decimals; FOV rounded to 3 decimals;
the shared `duration` stored as computed (not rounded). -/
def frameRecord (dur : ℚ) (i : ℕ) (e : PathEntry) : FrameRecord :=
  { frame_index := i + 1
  , position := { x := round3 e.pos.x, y := round3 e.pos.y, z := round3 e.pos.z }
  , rotation := { x := round3 (degrees e.rot.x)
                , y := round3 (degrees e.rot.y)
                , z := round3 (degrees e.rot.z) }
  , FOV := round3 e.fov
  , duration := dur }

/-- Lines 456-489, the body of the aggregation loop for one camera. -/
def aggregate (dur : ℚ) (lp ss : Bool) (pr : String × List PathEntry) :
    String × MovementScript :=
  (pr.1, { syncToSong := ss
         , loop := lp
         , frames := pr.2.enum.map (fun ie => frameRecord dur ie.1 ie.2) })

/-- Lines 451-489: the `movement` dictionary, with
`duration = 1 / scene.render.fps` computed once at line 454. -/
def movement (sc : Scene) (lp ss : Bool) : List (String × MovementScript) :=
  (buildPaths sc).map (aggregate (1 / sc.fps) lp ss)

/-- Index of the last occurrence of `c` in `s`, `-1` when absent
(Python's `str.rfind`). -/
def strRFind (s : List Char) (c : Char) : ℤ :=
  match s.reverse.findIdx? (fun ch => ch == c) with
  | some i => (s.length : ℤ) - 1 - (i : ℤ)
  | none => -1

/-- Python's `os.path.splitext` (posix separator `'/'`): split off the
extension at the last dot, unless that dot belongs to a leading run of
dots of the basename. -/
def splitext (p : String) : String × String :=
  let s := p.toList
  let sepIndex := strRFind s '/'
  let dotIndex := strRFind s '.'
  if sepIndex < dotIndex ∧
      ((s.take dotIndex.toNat).drop (sepIndex + 1).toNat).any (fun ch => ch != '.') = true then
    (String.mk (s.take dotIndex.toNat), String.mk (s.drop dotIndex.toNat))
  else (p, "")

/-- Lines 501-508: one file per `movement` key, at
`path_base_noext[0] + '_' + camera_name + '.json'`, holding that camera's
movement script. -/
def writtenFiles (sc : Scene) (filepath : String) (lp ss : Bool) :
    List (String × MovementScript) :=
  (movement sc lp ss).map (fun pr => ((splitext filepath).1 ++ "_" ++ pr.1 ++ ".json", pr.2))

/-- Blender selection state: names of the objects of `bpy.data.objects`,
names of the selected objects (each object carries one selection flag, so
the list is duplicate-free), and the active object. -/
structure BState where
  objects : List String
  selected : List String
  active : Option String
deriving DecidableEq

/-- Models `bpy.ops.object.empty_add()` followed by renaming the new object
(lines 308-310): the new object is appended, everything else is
deselected, and the new object becomes selected and active. -/
def emptyAdd (st : BState) (nm : String) : BState :=
  { objects := st.objects ++ [nm], selected := [nm], active := some nm }

/-- Models `obj.select_set(flag)`. -/
def selectSet (st : BState) (nm : String) (flag : Bool) : BState :=
  if flag then
    if nm ∈ st.selected then st else { st with selected := st.selected ++ [nm] }
  else { st with selected := st.selected.filter (fun n => n != nm) }

/-- Models `bpy.ops.object.delete()`: every selected object is removed; the
active object is cleared when it was among the deleted ones. -/
def deleteSelected (st : BState) : BState :=
  { objects := st.objects.filter (fun n => decide (n ∉ st.selected))
  , selected := []
  , active :=
      match st.active with
      | some a => if a ∈ st.selected then none else some a
      | none => none }

/-- Models `bpy.context.view_layer.objects.active = obj`. -/
def setActive (st : BState) (nm : String) : BState := { st with active := some nm }

/-- The selection-state effect of `export_main` (the sampling loop touches
no selection flags):

* lines 267-271: remember the active object's name and the selected names;
* lines 308-310: create the temporary export object;
* line 417: `export_obj.select_set(True)`;
* line 418: `bpy.ops.object.delete()`;
* lines 427-428: deselect whatever is still selected;
* lines 431-432: re-select the remembered names;
* line 434: restore the remembered active object. -/
def exportMainState (st : BState) (tmpName : String) : BState :=
  let preActive := st.active
  let preSelected := st.selected
  let st1 := emptyAdd st tmpName
  let st2 := selectSet st1 tmpName true
  let st3 := deleteSelected st2
  let st4 := st3.selected.foldl (fun s n => selectSet s n false) st3
  let st5 := preSelected.foldl (fun s n => selectSet s n true) st4
  match preActive with
  | some a => setActive st5 a
  | none => st5

/-- A concrete scene used to evaluate the pipeline: one qualifying camera
at location `(1, 2, 3)` with XYZ euler rotation `(π, 0, 0)` (a pitch of
180°) and `angle_y = π/4` (45°), frames 1 to 2, 30 fps.  The decomposition
oracle is the identity map: the only input it is ever applied to is
`(π/2, 0, 0)` (the euler angles after line 360's offset), and the YXZ
euler decomposition of the rotation with XYZ euler angles `(π/2, 0, 0)` —
the plain rotation by `π/2` about X — is indeed `(π/2, 0, 0)`, which is
what `mathutils` returns there. -/
def demoScene : Scene :=
  { objects := [{ name := "b2c2_cam", objType := "CAMERA" }
              , { name := "Light", objType := "LIGHT" }]
  , frame_start := 1
  , frame_end := 2
  , fps := 30
  , data := fun _ _ => { loc := { x := 1, y := 2, z := 3 }
                       , eul := { x := 1, y := 0, z := 0 }
                       , angle_y := 1/4 }
  , toEulerYXZ := fun v => v }

/-- The same scene with a decomposition oracle that is bounded like the
real `mathutils` one (every component of a `to_euler` result lies in
`[-π, π]`, because each is computed with `atan2`); it agrees with the real
decomposition at the one input the pipeline feeds it, `(π/2, 0, 0)`. -/
def demoSceneB : Scene :=
  { demoScene with toEulerYXZ := fun _ => { x := 1/2, y := 0, z := 0 } }

/-- A scene whose only camera does not carry the `b2c2_` name tag. -/
def demoSceneNoCam : Scene :=
  { demoScene with objects := [{ name := "Cube", objType := "MESH" }
                             , { name := "Camera", objType := "CAMERA" }] }

/-- The frame record produced by `demoScene` (and `demoSceneB`) at sequence
index `i`: position `(1, 3, 2)`, rotation `(-90, 0, 0)` degrees, FOV 45,
duration `1/30`. -/
def demoRec (i : ℕ) : FrameRecord :=
  { frame_index := i
  , position := { x := 1, y := 3, z := 2 }
  , rotation := { x := -90, y := 0, z := 0 }
  , FOV := 45
  , duration := 1/30 }

/-- The movement-dictionary entry produced for the camera of `demoScene`
(and `demoSceneB`) with both flags set. -/
def demoP : String × MovementScript :=
  ("b2c2_cam", { syncToSong := true, loop := true, frames := [demoRec 1, demoRec 2] })

/-- A concrete selection state: two objects, one selected, the other
active. -/
def demoBState : BState :=
  { objects := ["Camera", "Cube"], selected := ["Cube"], active := some "Camera" }

/-!  Helper lemmas about rounding. -/

theorem pyRoundHalfEven_intCast (n : ℤ) : pyRoundHalfEven (n : ℚ) = n := by
  simp [pyRoundHalfEven, Int.fract_intCast, Int.floor_intCast]

theorem round3_of_mul_eq (x : ℚ) (n : ℤ) (h : x * 1000 = (n : ℚ)) :
    round3 x = (n : ℚ) / 1000 := by
  rw [round3, h, pyRoundHalfEven_intCast]

theorem round3_round3 (x : ℚ) : round3 (round3 x) = round3 x := by
  have h : round3 x = (pyRoundHalfEven (x * 1000) : ℚ) / 1000 := rfl
  rw [h, round3_of_mul_eq _ (pyRoundHalfEven (x * 1000))
    (div_mul_cancel₀ _ (by norm_num))]

theorem pyRoundHalfEven_le (y : ℚ) (M : ℤ) (h : y ≤ (M : ℚ)) : pyRoundHalfEven y ≤ M := by
  have hfloor : ⌊y⌋ ≤ M := le_trans (Int.floor_mono h) (le_of_eq (Int.floor_intCast M))
  have hstep : 1/2 ≤ Int.fract y → ⌊y⌋ + 1 ≤ M := by
    intro hf
    rw [Int.fract] at hf
    have h1 : (⌊y⌋ : ℚ) + 1/2 ≤ y := by linarith
    have h2 : (⌊y⌋ : ℚ) < (M : ℚ) := by linarith
    have h3 : ⌊y⌋ < M := by exact_mod_cast h2
    omega
  unfold pyRoundHalfEven
  split_ifs with h1 h2 h3
  · exact hfloor
  · exact hstep (le_of_lt h2)
  · exact hfloor
  · exact hstep (le_of_not_lt h1)

theorem le_pyRoundHalfEven (y : ℚ) (M : ℤ) (h : (M : ℚ) ≤ y) : M ≤ pyRoundHalfEven y := by
  have hfloor : M ≤ ⌊y⌋ := by
    have := Int.floor_mono h
    rwa [Int.floor_intCast] at this
  unfold pyRoundHalfEven
  split_ifs <;> omega

theorem round3_bound (x : ℚ) (B : ℤ) (h1 : -(B : ℚ) ≤ x) (h2 : x ≤ (B : ℚ)) :
    -(B : ℚ) ≤ round3 x ∧ round3 x ≤ (B : ℚ) := by
  have hu : pyRoundHalfEven (x * 1000) ≤ B * 1000 := by
    refine pyRoundHalfEven_le _ _ ?_
    push_cast
    nlinarith
  have hl : -(B * 1000) ≤ pyRoundHalfEven (x * 1000) := by
    refine le_pyRoundHalfEven _ _ ?_
    push_cast
    nlinarith
  rw [round3]
  constructor
  · rw [le_div_iff₀ (by norm_num : (0:ℚ) < 1000)]
    calc -(B : ℚ) * 1000 = ((-(B * 1000) : ℤ) : ℚ) := by push_cast; ring
    _ ≤ _ := by exact_mod_cast hl
  · rw [div_le_iff₀ (by norm_num : (0:ℚ) < 1000)]
    calc ((pyRoundHalfEven (x * 1000) : ℤ) : ℚ) ≤ ((B * 1000 : ℤ) : ℚ) := by exact_mod_cast hu
    _ = (B : ℚ) * 1000 := by push_cast; ring

/-!  Helper lemmas for list membership in the pipeline. -/

theorem snd_mem_of_mem_enumFrom {α : Type} :
    ∀ {l : List α} {n : ℕ} {q : ℕ × α}, q ∈ l.enumFrom n → q.2 ∈ l := by
  intro l
  induction l with
  | nil => intro n q h; simp [List.enumFrom] at h
  | cons x xs ih =>
      intro n q h
      rw [List.enumFrom] at h
      rcases List.mem_cons.mp h with h1 | h2
      · rw [h1]; exact List.mem_cons_self _ _
      · exact List.mem_cons_of_mem _ (ih h2)

theorem mem_buildPaths {sc : Scene} {pr : String × List PathEntry} (h : pr ∈ buildPaths sc) :
    ∃ cam, cam ∈ findCameras sc.objects ∧
      pr = (cam.name, (frameRange sc).map (collectSample sc cam.name)) ∧
      frameRange sc ≠ [] := by
  by_cases hfr : frameRange sc = []
  · rw [buildPaths, if_pos hfr] at h
    exact absurd h (List.not_mem_nil _)
  · rw [buildPaths, if_neg hfr] at h
    obtain ⟨cam, hcam, heq⟩ := List.mem_map.mp h
    exact ⟨cam, hcam, by rw [← heq, cameraPath], hfr⟩

theorem mem_movement {sc : Scene} {lp ss : Bool} {p : String × MovementScript}
    (hp : p ∈ movement sc lp ss) :
    ∃ cam, cam ∈ findCameras sc.objects ∧ p.1 = cam.name ∧
      p.2.syncToSong = ss ∧ p.2.loop = lp ∧
      p.2.frames = ((frameRange sc).map (collectSample sc cam.name)).enum.map
        (fun ie => frameRecord (1 / sc.fps) ie.1 ie.2) ∧
      frameRange sc ≠ [] := by
  obtain ⟨pr, hpr, heq⟩ := List.mem_map.mp hp
  obtain ⟨cam, hcam, hpr2, hne⟩ := mem_buildPaths hpr
  refine ⟨cam, hcam, ?_, ?_, ?_, ?_, hne⟩ <;>
    rw [← heq, hpr2, aggregate]

theorem mem_frames {sc : Scene} {lp ss : Bool} {p : String × MovementScript}
    (hp : p ∈ movement sc lp ss) {r : FrameRecord} (hr : r ∈ p.2.frames) :
    ∃ i f, r = frameRecord (1 / sc.fps) i (collectSample sc p.1 f) := by
  obtain ⟨cam, _, hname, _, _, hframes, _⟩ := mem_movement hp
  rw [hframes] at hr
  obtain ⟨q, hq, heq⟩ := List.mem_map.mp hr
  have h2 : q.2 ∈ (frameRange sc).map (collectSample sc cam.name) := by
    have := snd_mem_of_mem_enumFrom (l := (frameRange sc).map (collectSample sc cam.name))
      (n := 0) (q := q)
    exact this hq
  obtain ⟨f, _, hf⟩ := List.mem_map.mp h2
  exact ⟨q.1, f, by rw [← heq, ← hf, hname]⟩

/-!  Evaluation of the pipeline on the concrete demo scenes. -/

theorem collectSample_demo (f : ℤ) : collectSample demoScene "b2c2_cam" f =
    { frame := f
    , pos := { x := 1, y := 3, z := 2 }
    , rot := { x := -(1/2), y := 0, z := 0 }
    , fov := 45 } := by
  simp only [collectSample, demoScene, radians, degrees, PathEntry.mk.injEq, Vec3.mk.injEq]
  norm_num

theorem collectSample_demoB (f : ℤ) :
    collectSample demoSceneB "b2c2_cam" f = collectSample demoScene "b2c2_cam" f := by
  simp only [collectSample, demoSceneB, demoScene, radians, degrees]
  norm_num

theorem frameRecord_demo (i : ℕ) (f : ℤ) :
    frameRecord (1/30) i (collectSample demoScene "b2c2_cam" f) = demoRec (i+1) := by
  rw [collectSample_demo]
  simp only [frameRecord, demoRec, degrees, FrameRecord.mk.injEq, Vec3.mk.injEq]
  refine ⟨trivial, ⟨?_, ?_, ?_⟩, ⟨?_, ?_, ?_⟩, ?_, trivial⟩
  · rw [round3_of_mul_eq 1 1000 (by norm_num)]; norm_num
  · rw [round3_of_mul_eq 3 3000 (by norm_num)]; norm_num
  · rw [round3_of_mul_eq 2 2000 (by norm_num)]; norm_num
  · rw [round3_of_mul_eq _ (-90000) (by norm_num)]; norm_num
  · rw [round3_of_mul_eq _ 0 (by norm_num)]; norm_num
  · rw [round3_of_mul_eq _ 0 (by norm_num)]; norm_num
  · rw [round3_of_mul_eq 45 45000 (by norm_num)]; norm_num

theorem findCameras_demo :
    findCameras demoScene.objects = [{ name := "b2c2_cam", objType := "CAMERA" }] := by decide

theorem frameRange_demo : frameRange demoScene = [1, 2] := by decide

theorem fps_demo : demoScene.fps = 30 := rfl

theorem buildPaths_demo : buildPaths demoScene =
    [("b2c2_cam", [collectSample demoScene "b2c2_cam" 1, collectSample demoScene "b2c2_cam" 2])] := by
  simp only [buildPaths, frameRange_demo, findCameras_demo, cameraPath]
  rw [if_neg (show ¬([1, 2] : List ℤ) = [] by decide)]
  simp

theorem movement_demo : movement demoScene true true = [demoP] := by
  simp only [movement, fps_demo, buildPaths_demo, aggregate, List.enum, List.enumFrom,
    List.map_cons, List.map_nil, demoP, List.cons.injEq, Prod.mk.injEq, MovementScript.mk.injEq]
  refine ⟨⟨trivial, trivial, trivial, ?_, ?_, trivial⟩, trivial⟩
  exacts [frameRecord_demo 0 1, frameRecord_demo 1 2]

theorem findCameras_demoB :
    findCameras demoSceneB.objects = [{ name := "b2c2_cam", objType := "CAMERA" }] := by decide

theorem frameRange_demoB : frameRange demoSceneB = [1, 2] := by decide

theorem buildPaths_demoB : buildPaths demoSceneB =
    [("b2c2_cam", [collectSample demoSceneB "b2c2_cam" 1, collectSample demoSceneB "b2c2_cam" 2])] := by
  simp only [buildPaths, frameRange_demoB, findCameras_demoB, cameraPath]
  rw [if_neg (show ¬([1, 2] : List ℤ) = [] by decide)]
  simp

theorem movement_demoB : movement demoSceneB true true = [demoP] := by
  simp only [movement, buildPaths_demoB, aggregate, List.enum, List.enumFrom,
    List.map_cons, List.map_nil, demoP, List.cons.injEq, Prod.mk.injEq, MovementScript.mk.injEq,
    collectSample_demoB]
  refine ⟨⟨trivial, trivial, trivial, ?_, ?_, trivial⟩, trivial⟩
  exacts [frameRecord_demo 0 1, frameRecord_demo 1 2]

theorem demoP_mem : demoP ∈ movement demoScene true true := by
  rw [movement_demo]; exact List.mem_singleton.mpr rfl

theorem demoP_memB : demoP ∈ movement demoSceneB true true := by
  rw [movement_demoB]; exact List.mem_singleton.mpr rfl

theorem demoRec1_mem : demoRec 1 ∈ demoP.2.frames := by
  simp [demoP]

theorem round3_degrees_bound (a : ℚ) (h1 : -1 ≤ a) (h2 : a ≤ 1) :
    -180 ≤ round3 (degrees (-a)) ∧ round3 (degrees (-a)) ≤ 180 := by
  have h := round3_bound (degrees (-a)) 180
    (by unfold degrees; push_cast; nlinarith)
    (by unfold degrees; push_cast; nlinarith)
  push_cast at h
  exact h

/-!  The claims. -/

/-- C1, the claim as stated: every rotation angle emitted in an output
frame record lies in `[0, 360)` degrees and is never negative.  This is
false on the code: lines 481-484 apply no range normalization, they only
round `math.degrees` of the negated decomposed angle.  The demo scene's
camera (pitch 180°, so the decomposed corrected angle is `-90°`) produces
a frame record whose x rotation is `-90`, outside `[0, 360)`. -/
theorem c1_rotation_range_counterexample :
    demoP ∈ movement demoScene true true ∧ demoRec 1 ∈ demoP.2.frames ∧
      ¬ (0 ≤ (demoRec 1).rotation.x ∧ (demoRec 1).rotation.x < 360) :=
  ⟨demoP_mem, demoRec1_mem, by norm_num [demoRec]⟩

/-- C1, amended: the emitted rotation angles are not normalized into
`[0, 360)`; they are `round3 (degrees (-e))` for the decomposed euler
angles `e`, and since `mathutils` `to_euler` returns angles in `[-π, π]`
(each component is an `atan2`), every emitted rotation component lies in
`[-180, 180]` degrees and may be negative. -/
theorem c1_amended_rotation_range (sc : Scene) (lp ss : Bool)
    (hE : ∀ v : Vec3, -1 ≤ (sc.toEulerYXZ v).x ∧ (sc.toEulerYXZ v).x ≤ 1 ∧
      -1 ≤ (sc.toEulerYXZ v).y ∧ (sc.toEulerYXZ v).y ≤ 1 ∧
      -1 ≤ (sc.toEulerYXZ v).z ∧ (sc.toEulerYXZ v).z ≤ 1)
    {p : String × MovementScript} (hp : p ∈ movement sc lp ss)
    {r : FrameRecord} (hr : r ∈ p.2.frames) :
    (-180 ≤ r.rotation.x ∧ r.rotation.x ≤ 180) ∧
    (-180 ≤ r.rotation.y ∧ r.rotation.y ≤ 180) ∧
    (-180 ≤ r.rotation.z ∧ r.rotation.z ≤ 180) := by
  obtain ⟨i, f, rfl⟩ := mem_frames hp hr
  have hb := hE { x := (sc.data p.1 f).eul.x + radians (-90)
                , y := (sc.data p.1 f).eul.y
                , z := (sc.data p.1 f).eul.z }
  exact ⟨round3_degrees_bound _ hb.1 hb.2.1,
    round3_degrees_bound _ hb.2.2.2.2.1 hb.2.2.2.2.2,
    round3_degrees_bound _ hb.2.2.1 hb.2.2.2.1⟩

/-- Witness for the amended C1, at the demo scene with the bounded
decomposition oracle. -/
theorem c1_amended_rotation_range_witness :
    ((∀ v : Vec3, -1 ≤ (demoSceneB.toEulerYXZ v).x ∧ (demoSceneB.toEulerYXZ v).x ≤ 1 ∧
        -1 ≤ (demoSceneB.toEulerYXZ v).y ∧ (demoSceneB.toEulerYXZ v).y ≤ 1 ∧
        -1 ≤ (demoSceneB.toEulerYXZ v).z ∧ (demoSceneB.toEulerYXZ v).z ≤ 1) ∧
      demoP ∈ movement demoSceneB true true ∧ demoRec 1 ∈ demoP.2.frames) ∧
    ((-180 ≤ (demoRec 1).rotation.x ∧ (demoRec 1).rotation.x ≤ 180) ∧
     (-180 ≤ (demoRec 1).rotation.y ∧ (demoRec 1).rotation.y ≤ 180) ∧
     (-180 ≤ (demoRec 1).rotation.z ∧ (demoRec 1).rotation.z ≤ 180)) :=
  ⟨⟨fun _ => by norm_num [demoSceneB], demoP_memB, demoRec1_mem⟩,
    c1_amended_rotation_range demoSceneB true true
      (fun _ => by norm_num [demoSceneB]) demoP_memB demoRec1_mem⟩

/-- C2: for every camera sample the collected rotation is obtained by
first adding `math.radians(-90)` — that is, subtracting 90 degrees, the
constant `-π/2`, stored here as `-(1/2)` in units of π — to the X euler
angle of the source world matrix (line 360), then decomposing with euler
order YXZ (line 401), and finally negating all three decomposed angles
(line 407, with the y/z slots of the decomposition tuple swapped).  The
offset and the sign flip are the same for every scene, camera and
frame. -/
theorem c2_pitch_offset_and_sign_flip (sc : Scene) (camName : String) (f : ℤ) :
    radians (-90) = -(1/2) ∧
    (collectSample sc camName f).rot =
      { x := -(sc.toEulerYXZ { x := (sc.data camName f).eul.x + radians (-90)
                             , y := (sc.data camName f).eul.y
                             , z := (sc.data camName f).eul.z }).x
      , y := -(sc.toEulerYXZ { x := (sc.data camName f).eul.x + radians (-90)
                             , y := (sc.data camName f).eul.y
                             , z := (sc.data camName f).eul.z }).z
      , z := -(sc.toEulerYXZ { x := (sc.data camName f).eul.x + radians (-90)
                             , y := (sc.data camName f).eul.y
                             , z := (sc.data camName f).eul.z }).y } :=
  ⟨by norm_num [radians], rfl⟩

/-- C3: the position components are permuted by swapping the second and
third axes — line 400 destructures `to_translation()` as `(px, pz, py)`
and line 406 stores `(px, py, pz)`, so a source `(x, y, z)` maps to
`(x, z, y)`; in particular the demo scene's source position `(1, 2, 3)`
maps to `(1, 3, 2)`. -/
theorem c3_axis_permutation :
    (∀ (sc : Scene) (camName : String) (f : ℤ),
        (collectSample sc camName f).pos =
          { x := (sc.data camName f).loc.x
          , y := (sc.data camName f).loc.z
          , z := (sc.data camName f).loc.y }) ∧
      (collectSample demoScene "b2c2_cam" 1).pos = { x := 1, y := 3, z := 2 } :=
  ⟨fun _ _ _ => rfl, by rw [collectSample_demo]⟩

/-- C4, the claim as stated: every numeric field of a frame record —
including `duration` — is rounded to 3 decimal places.  False on the
code: line 487 stores the duration `1 / fps` without rounding, so at 30
fps the stored duration `1/30` is not a 3-decimal value
(`round(1/30, 3) = 0.033 ≠ 1/30`). -/
theorem c4_duration_not_rounded_counterexample :
    demoP ∈ movement demoScene true true ∧ demoRec 1 ∈ demoP.2.frames ∧
      round3 (demoRec 1).duration ≠ (demoRec 1).duration := by
  refine ⟨demoP_mem, demoRec1_mem, ?_⟩
  have h1 : (demoRec 1).duration = 1/30 := rfl
  have h2 : ⌊(100/3 : ℚ)⌋ = 33 := by
    rw [Int.floor_eq_iff]
    norm_num
  have h3 : Int.fract (100/3 : ℚ) = 1/3 := by
    rw [Int.fract, h2]; norm_num
  rw [h1]
  unfold round3 pyRoundHalfEven
  rw [show ((1:ℚ)/30) * 1000 = 100/3 by norm_num, h3, h2]
  norm_num

/-- C4, amended: in every frame record the three position components, the
three rotation components and the FOV are 3-decimal values (fixed points
of `round3`), produced by rounding exactly once, at the aggregation
stage, from the full-precision converter output (the record is
`frameRecord` applied to an unrounded `collectSample` result); the
`duration` field is stored unrounded as `1 / fps`. -/
theorem c4_amended_rounding (sc : Scene) (lp ss : Bool)
    {p : String × MovementScript} (hp : p ∈ movement sc lp ss)
    {r : FrameRecord} (hr : r ∈ p.2.frames) :
    round3 r.position.x = r.position.x ∧ round3 r.position.y = r.position.y ∧
    round3 r.position.z = r.position.z ∧
    round3 r.rotation.x = r.rotation.x ∧ round3 r.rotation.y = r.rotation.y ∧
    round3 r.rotation.z = r.rotation.z ∧
    round3 r.FOV = r.FOV ∧
    r.duration = 1 / sc.fps ∧
    ∃ i f, r = frameRecord (1 / sc.fps) i (collectSample sc p.1 f) := by
  obtain ⟨i, f, rfl⟩ := mem_frames hp hr
  exact ⟨round3_round3 _, round3_round3 _, round3_round3 _, round3_round3 _,
    round3_round3 _, round3_round3 _, round3_round3 _, rfl, i, f, rfl⟩

/-- Witness for the amended C4, at the demo scene. -/
theorem c4_amended_rounding_witness :
    (demoP ∈ movement demoScene true true ∧ demoRec 1 ∈ demoP.2.frames) ∧
    (round3 (demoRec 1).position.x = (demoRec 1).position.x ∧
     round3 (demoRec 1).position.y = (demoRec 1).position.y ∧
     round3 (demoRec 1).position.z = (demoRec 1).position.z ∧
     round3 (demoRec 1).rotation.x = (demoRec 1).rotation.x ∧
     round3 (demoRec 1).rotation.y = (demoRec 1).rotation.y ∧
     round3 (demoRec 1).rotation.z = (demoRec 1).rotation.z ∧
     round3 (demoRec 1).FOV = (demoRec 1).FOV ∧
     (demoRec 1).duration = 1 / demoScene.fps ∧
     ∃ i f, demoRec 1 = frameRecord (1 / demoScene.fps) i
        (collectSample demoScene demoP.1 f)) :=
  ⟨⟨demoP_mem, demoRec1_mem⟩,
    c4_amended_rounding demoScene true true demoP_mem demoRec1_mem⟩

/-- C5: every frame record of every camera of one run stores the same
duration, the value `1 / frame_rate` computed once at line 454. -/
theorem c5_duration_constant (sc : Scene) (lp ss : Bool)
    {p : String × MovementScript} (hp : p ∈ movement sc lp ss)
    {r : FrameRecord} (hr : r ∈ p.2.frames) :
    r.duration = 1 / sc.fps := by
  obtain ⟨i, f, rfl⟩ := mem_frames hp hr
  rfl

/-- Witness for C5: at 30 fps the demo record's duration is `1/30`. -/
theorem c5_duration_constant_witness :
    (demoP ∈ movement demoScene true true ∧ demoRec 1 ∈ demoP.2.frames) ∧
      (demoRec 1).duration = 1 / demoScene.fps :=
  ⟨⟨demoP_mem, demoRec1_mem⟩,
    c5_duration_constant demoScene true true demoP_mem demoRec1_mem⟩

/-- C6: each exported camera's frames list holds exactly one record per
timeline frame of `[frame_start, frame_end]` (the frame range enumerates
those frames, strictly increasing), and the `frame_index` fields run
`1, 2, ..., N`. -/
theorem c6_frames_enumeration (sc : Scene) (lp ss : Bool)
    {p : String × MovementScript} (hp : p ∈ movement sc lp ss) :
    p.2.frames.map (fun r => r.frame_index) =
      (List.range p.2.frames.length).map (fun i => i + 1) ∧
    p.2.frames.length = (frameRange sc).length ∧
    (frameRange sc).Pairwise (· < ·) ∧
    (∀ f : ℤ, f ∈ frameRange sc ↔ sc.frame_start ≤ f ∧ f ≤ sc.frame_end) ∧
    ∃ entries, (p.1, entries) ∈ buildPaths sc ∧
      entries.map (fun e => e.frame) = frameRange sc ∧
      p.2.frames = entries.enum.map (fun ie => frameRecord (1 / sc.fps) ie.1 ie.2) := by
  obtain ⟨cam, hcam, hname, _, _, hframes, hne⟩ := mem_movement hp
  refine ⟨?_, ?_, ?_, ?_, ?_⟩
  · rw [hframes, List.map_map]
    have hc : ((fun r => r.frame_index) ∘ fun ie : ℕ × PathEntry =>
        frameRecord (1 / sc.fps) ie.1 ie.2) = fun ie : ℕ × PathEntry => ie.1 + 1 := rfl
    rw [hc]
    have hc2 : (((frameRange sc).map (collectSample sc cam.name)).enum.map
        (fun ie : ℕ × PathEntry => ie.1 + 1)) =
        ((((frameRange sc).map (collectSample sc cam.name)).enum.map Prod.fst).map
          (fun i => i + 1)) := by
      rw [List.map_map]; rfl
    rw [hc2, List.enum_map_fst]
    simp
  · rw [hframes]
    simp
  · rw [frameRange, List.pairwise_map]
    exact (List.pairwise_lt_range _).imp (by intro a b hab; omega)
  · intro f
    rw [frameRange]
    simp only [List.mem_map, List.mem_range]
    constructor
    · rintro ⟨i, hi, rfl⟩; omega
    · rintro ⟨h1, h2⟩
      exact ⟨(f - sc.frame_start).toNat, by omega, by omega⟩
  · refine ⟨(frameRange sc).map (collectSample sc cam.name), ?_, ?_, hframes⟩
    · rw [buildPaths, if_neg hne]
      exact List.mem_map.mpr ⟨cam, hcam, by rw [hname, cameraPath]⟩
    · rw [List.map_map]
      have hc : ((fun e => e.frame) ∘ collectSample sc cam.name) = @id ℤ := rfl
      rw [hc, List.map_id]

/-- Witness for C6, at the demo scene. -/
theorem c6_frames_enumeration_witness :
    demoP ∈ movement demoScene true true ∧
    (demoP.2.frames.map (fun r => r.frame_index) =
        (List.range demoP.2.frames.length).map (fun i => i + 1) ∧
      demoP.2.frames.length = (frameRange demoScene).length ∧
      (frameRange demoScene).Pairwise (· < ·) ∧
      (∀ f : ℤ, f ∈ frameRange demoScene ↔
        demoScene.frame_start ≤ f ∧ f ≤ demoScene.frame_end) ∧
      ∃ entries, (demoP.1, entries) ∈ buildPaths demoScene ∧
        entries.map (fun e => e.frame) = frameRange demoScene ∧
        demoP.2.frames = entries.enum.map
          (fun ie => frameRecord (1 / demoScene.fps) ie.1 ie.2)) :=
  ⟨demoP_mem, c6_frames_enumeration demoScene true true demoP_mem⟩

/-- C7: when no camera object's lowercased name starts with the
configured prefix, the run writes zero files.  (The embedding is a total
function, so the run also completes: there is no failure branch in lines
283-293 or 501-508 for this case.) -/
theorem c7_no_matching_cameras (sc : Scene) (fp : String) (lp ss : Bool)
    (h : ∀ o ∈ sc.objects, o.objType = "CAMERA" →
      pyStartsWith (pyLower o.name) CONFIG_CAMERA_PREFIX = false) :
    writtenFiles sc fp lp ss = [] := by
  have hfc : findCameras sc.objects = [] := by
    rw [findCameras, List.filter_eq_nil_iff]
    intro o ho
    by_cases hc : o.objType = "CAMERA"
    · simp [hc, h o ho hc]
    · simp [hc]
  unfold writtenFiles movement buildPaths
  rw [hfc]
  split <;> simp

/-- Witness for C7: a scene whose only camera is named `Camera`. -/
theorem c7_no_matching_cameras_witness :
    (∀ o ∈ demoSceneNoCam.objects, o.objType = "CAMERA" →
      pyStartsWith (pyLower o.name) CONFIG_CAMERA_PREFIX = false) ∧
    writtenFiles demoSceneNoCam "/tmp/out.json" true true = [] :=
  ⟨by decide, c7_no_matching_cameras demoSceneNoCam "/tmp/out.json" true true (by decide)⟩

/-- C8 (supporting theorem): `export_main` performs no validation of the
sampled values.  Two scenes with the same objects and frame range produce
the same files (same names, same count) no matter what position,
orientation or FOV data their samplers return — there is no
input-dependent rejection or abort path in the pipeline. -/
theorem c8_no_input_validation (sc₁ sc₂ : Scene) (fp : String) (lp ss : Bool)
    (ho : sc₁.objects = sc₂.objects) (hs : sc₁.frame_start = sc₂.frame_start)
    (he : sc₁.frame_end = sc₂.frame_end) :
    (writtenFiles sc₁ fp lp ss).map Prod.fst = (writtenFiles sc₂ fp lp ss).map Prod.fst := by
  unfold writtenFiles movement buildPaths frameRange cameraPath
  rw [ho, hs, he]
  split <;> simp only [List.map_map, List.map_nil]
  exact List.map_congr_left (fun a _ => rfl)

/-- Witness for C8: the two demo scenes differ in their sampled data but
yield the same single output file. -/
theorem c8_no_input_validation_witness :
    (demoScene.objects = demoSceneB.objects ∧
     demoScene.frame_start = demoSceneB.frame_start ∧
     demoScene.frame_end = demoSceneB.frame_end) ∧
    (writtenFiles demoScene "/tmp/out.json" true true).map Prod.fst =
      (writtenFiles demoSceneB "/tmp/out.json" true true).map Prod.fst :=
  ⟨⟨rfl, rfl, rfl⟩,
    c8_no_input_validation demoScene demoSceneB "/tmp/out.json" true true rfl rfl rfl⟩

/-- C9: with a nonempty frame range, the run writes exactly one file per
qualifying camera, named by dropping the base path's extension and
appending an underscore, the camera name, and `.json` (lines 501-508). -/
theorem c9_output_filenames (sc : Scene) (fp : String) (lp ss : Bool)
    (h : sc.frame_start ≤ sc.frame_end) :
    (writtenFiles sc fp lp ss).map Prod.fst =
      (findCameras sc.objects).map
        (fun cam => (splitext fp).1 ++ "_" ++ cam.name ++ ".json") := by
  have hne : frameRange sc ≠ [] := by
    rw [frameRange]
    simp only [ne_eq, List.map_eq_nil_iff, List.range_eq_nil]
    omega
  unfold writtenFiles movement buildPaths
  rw [if_neg hne]
  simp only [List.map_map]
  exact List.map_congr_left (fun a _ => rfl)

/-- Witness for C9, at the demo scene and base path `/tmp/out.json`. -/
theorem c9_output_filenames_witness :
    demoScene.frame_start ≤ demoScene.frame_end ∧
    (writtenFiles demoScene "/tmp/out.json" true true).map Prod.fst =
      (findCameras demoScene.objects).map
        (fun cam => (splitext "/tmp/out.json").1 ++ "_" ++ cam.name ++ ".json") :=
  ⟨by decide, c9_output_filenames demoScene "/tmp/out.json" true true (by decide)⟩

theorem foldl_selectSet_true : ∀ (l : List String) (st : BState),
    (∀ n ∈ l, n ∉ st.selected) → l.Nodup →
    l.foldl (fun s n => selectSet s n true) st = { st with selected := st.selected ++ l } := by
  intro l
  induction l with
  | nil => intro st _ _; simp
  | cons n tl ih =>
      intro st hd hnd
      rw [List.foldl_cons]
      have hn : n ∉ st.selected := hd n (List.mem_cons_self n tl)
      have h1 : selectSet st n true =
          if n ∈ st.selected then st else { st with selected := st.selected ++ [n] } := rfl
      rw [h1, if_neg hn]
      have hd2 : ∀ m ∈ tl, m ∉ ({ st with selected := st.selected ++ [n] } : BState).selected := by
        intro m hm
        simp only [List.mem_append, List.mem_singleton]
        push_neg
        exact ⟨hd m (List.mem_cons_of_mem n hm),
          fun heq => (List.nodup_cons.mp hnd).1 (heq ▸ hm)⟩
      rw [ih _ hd2 (List.Nodup.of_cons hnd)]
      simp [List.append_assoc]

/-- C10: when `export_main` completes normally (the entry was possible
only with an active object, line 267, and the hashed temporary name is
fresh, lines 304-306), the Blender selection state is fully restored —
selected objects and active object are as before the call — and the
temporary export object no longer exists. -/
theorem c10_selection_restored (st : BState) (tmpName a : String)
    (ha : st.active = some a) (ht : tmpName ∉ st.objects) (hnd : st.selected.Nodup) :
    exportMainState st tmpName = st ∧ tmpName ∉ (exportMainState st tmpName).objects := by
  have key : exportMainState st tmpName = st := by
    obtain ⟨obs, sel, act⟩ := st
    simp only at ha ht hnd
    subst ha
    have step : exportMainState ⟨obs, sel, some a⟩ tmpName =
        setActive (sel.foldl (fun s n => selectSet s n true)
          (deleteSelected (selectSet (emptyAdd ⟨obs, sel, some a⟩ tmpName) tmpName true))) a := rfl
    rw [step]
    have e1 : emptyAdd (⟨obs, sel, some a⟩ : BState) tmpName =
        ⟨obs ++ [tmpName], [tmpName], some tmpName⟩ := rfl
    rw [e1]
    have e2 : selectSet (⟨obs ++ [tmpName], [tmpName], some tmpName⟩ : BState) tmpName true =
        ⟨obs ++ [tmpName], [tmpName], some tmpName⟩ := by
      simp [selectSet]
    rw [e2]
    have e3 : deleteSelected (⟨obs ++ [tmpName], [tmpName], some tmpName⟩ : BState) =
        ⟨obs, [], none⟩ := by
      simp only [deleteSelected, BState.mk.injEq]
      refine ⟨?_, trivial, by simp⟩
      rw [List.filter_append]
      have hA : obs.filter (fun n => decide (n ∉ [tmpName])) = obs := by
        rw [List.filter_eq_self]
        intro x hx
        simp only [List.mem_singleton, decide_eq_true_eq]
        exact fun heq => ht (heq ▸ hx)
      have hB : [tmpName].filter (fun n => decide (n ∉ [tmpName])) = [] := by simp
      rw [hA, hB, List.append_nil]
    rw [e3]
    have e4 : sel.foldl (fun s n => selectSet s n true) (⟨obs, [], none⟩ : BState) =
        ⟨obs, sel, none⟩ := by
      rw [foldl_selectSet_true sel ⟨obs, [], none⟩ (by intro m _; exact List.not_mem_nil m) hnd]
      simp
    rw [e4]
    rfl
  exact ⟨key, by rw [key]; exact ht⟩

/-- Witness for C10, at a concrete two-object selection state. -/
theorem c10_selection_restored_witness :
    (demoBState.active = some "Camera" ∧ "b2c2_export_object_tmp" ∉ demoBState.objects ∧
      demoBState.selected.Nodup) ∧
    (exportMainState demoBState "b2c2_export_object_tmp" = demoBState ∧
      "b2c2_export_object_tmp" ∉ (exportMainState demoBState "b2c2_export_object_tmp").objects) :=
  ⟨⟨rfl, by decide, by decide⟩,
    c10_selection_restored demoBState "b2c2_export_object_tmp" "Camera" rfl
      (by decide) (by decide)⟩

end B2C2
